import Mathlib

/-!
Shallow embedding of `src/system.c` (network bootstrap layer of the
ravenmaster UDP master server): listen-address parsing and resolution,
listen-socket creation with per-family fallback and rollback, the
three-phase security-hardening sequence, and address formatting.

System calls (getaddrinfo, socket, setsockopt, bind, getnameinfo, open,
daemon, getpwnam, chroot, chdir, setgid, setuid) are modelled as
environment parameters; everything else is translated directly from the C
source.  The POSIX build is modelled (the `#ifndef WIN32` branches): the
WIN32-only code (WSAStartup, the NETERR_NOPROTOOPT tolerance) is excluded,
which matches the features the claims are about (daemon, chroot, UID/GID).
-/

namespace Ravenmaster

/-- Address families (AF_UNSPEC / AF_INET / AF_INET6). -/
inductive AddrFamily where
  | af_unspec
  | af_inet
  | af_inet6
deriving DecidableEq, Repr

/-- Abstraction of `struct sockaddr_storage`: the family of the resolved
address plus the host/port data the environment resolved it from. -/
structure SockaddrT where
  family : AddrFamily
  host : List Char
  port : String
deriving DecidableEq, Repr

/-- The all-zero `sockaddr_storage` (static initialization / memset). -/
def zeroSockaddr : SockaddrT :=
  { family := AddrFamily.af_unspec, host := [], port := "" }

/-- One entry of the `listen_sockets` table (`listen_socket_t`).
`socket` is the file-descriptor field: 0 after memset / static zero
initialization, -1 is the "closed" sentinel tested by
`Sys_CloseAllSockets`, otherwise a descriptor returned by `socket()`. -/
structure ListenSocketT where
  local_addr : SockaddrT
  local_addr_name : Option (List Char)
  local_addr_name_no_port : Option (List Char)
  optional : Bool
  socket : Int
deriving DecidableEq, Repr

/-- Environment for `getaddrinfo`: host (NULL for wildcard), service name,
family hint; `none` models a lookup failure. -/
structure ResolveEnv where
  getaddrinfo : Option (List Char) → String → AddrFamily → Option SockaddrT

/-- `Sys_BuildSockaddr`: a `getaddrinfo` lookup with `SOCK_DGRAM` and
`AI_PASSIVE` hints; on success the resolved address is copied out. -/
def Sys_BuildSockaddr (env : ResolveEnv) (addr_name : Option (List Char))
    (port_name : String) (hint : AddrFamily) : Option SockaddrT :=
  env.getaddrinfo addr_name port_name hint

/-- The parsing half of `Sys_StringToSockaddr`: extract the host portion
and the address-family hint from an address token, with C's
`strchr`/`strrchr` colon and bracket scanning.  `none` is a syntax
error. -/
def parseAddressToken (address : List Char) : Option (List Char × AddrFamily) :=
  if address.head? = some '[' then
    -- bracketed IPv6 literal; strchr(address, ']') never matches the
    -- leading '[' so it is a search of the tail
    let rest := address.tail
    if (']' : Char) ∈ rest then
      let host := rest.takeWhile (fun c => c != ']')
      let after := (rest.dropWhile (fun c => c != ']')).tail
      if after.head? = none ∨ after.head? = some ':' then
        some (host, AddrFamily.af_inet6)
      else none
    else none
  else
    if (':' : Char) ∈ address then
      if (':' : Char) ∈ (address.dropWhile (fun c => c != ':')).tail then
        -- a second colon after the first one: bare IPv6 literal
        some (address, AddrFamily.af_inet6)
      else
        -- exactly one colon: host is the text before it
        some (address.takeWhile (fun c => c != ':'), AddrFamily.af_unspec)
    else some (address, AddrFamily.af_unspec)

/-- `Sys_StringToSockaddr`: parse the token, reject a host that does not
fit the 128-byte scratch buffer, then resolve with `Sys_BuildSockaddr`.
The C function receives the service name as the separate `port_name`
argument and passes it through unchanged.  On success the result carries
the resolved sockaddr and the `address_no_port` host copy. -/
def Sys_StringToSockaddr (env : ResolveEnv) (address : List Char)
    (port_name : String) : Option (SockaddrT × List Char) :=
  match parseAddressToken address with
  | none => none
  | some (host, fam) =>
    if 128 ≤ host.length then none
    else
      match Sys_BuildSockaddr env (some host) port_name fam with
      | none => none
      | some sa => some (sa, host)

/-- A freshly resolved wildcard entry: zeroed by memset, then the address
is filled in and `optional` is set. -/
def wildcardSocketEntry (sa : SockaddrT) : ListenSocketT :=
  { local_addr := sa, local_addr_name := none, local_addr_name_no_port := none,
    optional := true, socket := 0 }

/-- A freshly resolved declared-address entry: statically zeroed storage
(`optional` stays false, `socket` stays 0), address, declared name and
no-port host filled in. -/
def declaredSocketEntry (name : List Char) (sa : SockaddrT) (np : List Char) :
    ListenSocketT :=
  { local_addr := sa, local_addr_name := some name,
    local_addr_name_no_port := some np, optional := false, socket := 0 }

/-- Inner port loop of the no-declared-addresses path of
`Sys_ResolveListenAddresses`: one wildcard entry per port for the given
family, appended to the socket table; stops with failure on the first
failing lookup, leaving the table as built so far. -/
def resolveWildcardPorts (env : ResolveEnv) (fam : AddrFamily) :
    List String → List ListenSocketT → Bool × List ListenSocketT
  | [], acc => (true, acc)
  | p :: ps, acc =>
    match Sys_BuildSockaddr env none p fam with
    | none => (false, acc)
    | some sa => resolveWildcardPorts env fam ps (acc ++ [wildcardSocketEntry sa])

/-- Outer family loop of the no-declared-addresses path
(families outer, ports inner). -/
def resolveWildcardFamilies (env : ResolveEnv) (ports : List String) :
    List AddrFamily → List ListenSocketT → Bool × List ListenSocketT
  | [], acc => (true, acc)
  | f :: fs, acc =>
    match resolveWildcardPorts env f ports acc with
    | (true, acc2) => resolveWildcardFamilies env ports fs acc2
    | (false, acc2) => (false, acc2)

/-- Inner port loop of the declared-addresses path: one entry per port for
the given declared name. -/
def resolveDeclaredPorts (env : ResolveEnv) (name : List Char) :
    List String → List ListenSocketT → Bool × List ListenSocketT
  | [], acc => (true, acc)
  | p :: ps, acc =>
    match Sys_StringToSockaddr env name p with
    | none => (false, acc)
    | some r =>
      resolveDeclaredPorts env name ps (acc ++ [declaredSocketEntry name r.1 r.2])

/-- Outer address loop of the declared-addresses path
(addresses outer, ports inner). -/
def resolveDeclaredAddresses (env : ResolveEnv) (ports : List String) :
    List (List Char) → List ListenSocketT → Bool × List ListenSocketT
  | [], acc => (true, acc)
  | a :: rest, acc =>
    match resolveDeclaredPorts env a ports acc with
    | (true, acc2) => resolveDeclaredAddresses env ports rest acc2
    | (false, acc2) => (false, acc2)

/-- `Sys_ResolveListenAddresses` (step 2): with an empty address registry,
synthesize wildcard IPv4 and IPv6 entries per port; otherwise resolve the
cartesian product of declared addresses and ports.  The boolean is the
`qboolean` result; the list is the `listen_sockets` table
(`nb_sockets` = its length). -/
def Sys_ResolveListenAddresses (env : ResolveEnv)
    (listen_addresses : List (List Char)) (listen_ports : List String)
    (init : List ListenSocketT) : Bool × List ListenSocketT :=
  match listen_addresses with
  | [] =>
    resolveWildcardFamilies env listen_ports
      [AddrFamily.af_inet, AddrFamily.af_inet6] init
  | _ :: _ => resolveDeclaredAddresses env listen_ports listen_addresses init

/-- A single resolution request, in plan order: either a synthesized
wildcard (family, port) or a declared (name, port) pair. -/
inductive ResolveRequest where
  | wildcard (fam : AddrFamily) (port : String)
  | declared (name : List Char) (port : String)
deriving DecidableEq, Repr

/-- Resolve a single request to its table entry. -/
def resolveRequest (env : ResolveEnv) : ResolveRequest → Option ListenSocketT
  | ResolveRequest.wildcard f p =>
    (Sys_BuildSockaddr env none p f).map wildcardSocketEntry
  | ResolveRequest.declared a p =>
    (Sys_StringToSockaddr env a p).map (fun r => declaredSocketEntry a r.1 r.2)

/-- Process requests in order, appending entries, stopping with failure at
the first request that does not resolve. -/
def processRequests (env : ResolveEnv) :
    List ResolveRequest → List ListenSocketT → Bool × List ListenSocketT
  | [], acc => (true, acc)
  | q :: qs, acc =>
    match resolveRequest env q with
    | none => (false, acc)
    | some e => processRequests env qs (acc ++ [e])

/-- Wildcard requests: families outer, ports inner. -/
def wildcardRequests (ports : List String) :
    List AddrFamily → List ResolveRequest
  | [] => []
  | f :: fs => ports.map (ResolveRequest.wildcard f) ++ wildcardRequests ports fs

/-- Declared requests: addresses outer, ports inner. -/
def declaredRequests (ports : List String) :
    List (List Char) → List ResolveRequest
  | [] => []
  | a :: rest => ports.map (ResolveRequest.declared a) ++ declaredRequests ports rest

/-- The flat request plan of `Sys_ResolveListenAddresses`. -/
def requestsOf (listen_addresses : List (List Char)) (ports : List String) :
    List ResolveRequest :=
  match listen_addresses with
  | [] => wildcardRequests ports [AddrFamily.af_inet, AddrFamily.af_inet6]
  | _ :: _ => declaredRequests ports listen_addresses

/-- Expected wildcard entry for (family, port), under a successful run. -/
def wildcardEntryOf (env : ResolveEnv) (fam : AddrFamily) (p : String) :
    ListenSocketT :=
  wildcardSocketEntry ((Sys_BuildSockaddr env none p fam).getD zeroSockaddr)

/-- Expected declared entry for (name, port), under a successful run. -/
def declaredEntryOf (env : ResolveEnv) (a : List Char) (p : String) :
    ListenSocketT :=
  match Sys_StringToSockaddr env a p with
  | some r => declaredSocketEntry a r.1 r.2
  | none => declaredSocketEntry a zeroSockaddr []

/-- Expected table for the declared path: cartesian product, addresses
outer, ports inner. -/
def declaredExpected (env : ResolveEnv) (ports : List String) :
    List (List Char) → List ListenSocketT
  | [] => []
  | a :: rest => ports.map (declaredEntryOf env a) ++ declaredExpected env ports rest

/-- Result of one `socket()` call: `none` is success, otherwise the error
reported by `Sys_GetLastNetError` (EAFNOSUPPORT or anything else). -/
inductive SockErr where
  | afnosupport
  | other
deriving DecidableEq, Repr

/-- Environment for the socket syscalls used by `Sys_CreateListenSockets`.
`socketRes n` is the outcome of the n-th `socket()` call of the run; on
success the kernel hands out the next free descriptor (`fdBase + n`).
`setsockoptOk` / `bindOk` give the `IPV6_V6ONLY` and `bind` outcomes for a
descriptor. -/
structure NetEnv where
  socketRes : Nat → Option SockErr
  setsockoptOk : Int → Bool
  bindOk : Int → Bool

/-- First descriptor the kernel hands out (0,1,2 are the standard streams). -/
def fdBase : Int := 3

/-- State threaded through `Sys_CreateListenSockets`: the `listen_sockets`
table (active region, `nb_sockets` = length), the number of `socket()`
calls made, and the descriptors opened and closed so far in this run. -/
structure CreateState where
  sockets : List ListenSocketT
  counter : Nat
  opened : List Int
  closed : List Int
deriving DecidableEq, Repr

/-- `Sys_CloseAllSockets`: close `sock->socket` of every table entry whose
descriptor field is not -1, then reset `nb_sockets` to 0. -/
def Sys_CloseAllSockets (st : CreateState) : CreateState :=
  { sockets := [],
    counter := st.counter,
    opened := st.opened,
    closed := st.closed ++
      (st.sockets.filter (fun e => e.socket != -1)).map (fun e => e.socket) }

/-- The in-place compaction performed when an optional entry is dropped:
`memmove(&listen_sockets[i], &listen_sockets[i+1], (n - i - 2) * size)`
when `i + 1 < n`, followed by `nb_sockets--`.  The copy moves one entry
too few, so after the count drops the last active slot still holds the
old entry `n-2`; translated literally from the source. -/
def removeCompacted (s : List ListenSocketT) (i : Nat) : List ListenSocketT :=
  if i + 1 < s.length then
    s.take i ++ (s.drop (i + 1)).take (s.length - i - 2) ++
      (s.drop (s.length - 2)).take 1
  else
    s.take (s.length - 1)

/-- The `for (sock_ind = 0; sock_ind < nb_sockets; sock_ind++)` loop of
`Sys_CreateListenSockets`, fuel-indexed (each iteration shrinks
`nb_sockets - sock_ind`, so `initial length + 1` fuel is always enough).
Per entry: create the socket; on EAFNOSUPPORT for an optional entry warn,
compact, and re-examine the same index (`sock_ind--; continue`); on any
other creation failure close everything and fail; for an IPv6 entry a
failing `IPV6_V6ONLY` setsockopt is fatal (POSIX build); a bind failure is
fatal; on success record the descriptor in the entry. -/
def createLoop (env : NetEnv) : Nat → Nat → CreateState → Bool × CreateState
  | 0, _, st => (true, st)
  | fuel + 1, i, st =>
    if h : i < st.sockets.length then
      let e := st.sockets.get ⟨i, h⟩
      match env.socketRes st.counter with
      | some SockErr.afnosupport =>
        if e.optional then
          createLoop env fuel i
            { sockets := removeCompacted st.sockets i, counter := st.counter + 1,
              opened := st.opened, closed := st.closed }
        else
          (false, Sys_CloseAllSockets { st with counter := st.counter + 1 })
      | some SockErr.other =>
        (false, Sys_CloseAllSockets { st with counter := st.counter + 1 })
      | none =>
        let fd := fdBase + (st.counter : Int)
        let st1 : CreateState :=
          { sockets := st.sockets, counter := st.counter + 1,
            opened := st.opened ++ [fd], closed := st.closed }
        if e.local_addr.family = AddrFamily.af_inet6 ∧ env.setsockoptOk fd = false then
          (false, Sys_CloseAllSockets st1)
        else if env.bindOk fd = false then
          (false, Sys_CloseAllSockets st1)
        else
          createLoop env fuel (i + 1)
            { sockets := st1.sockets.set i { e with socket := fd },
              counter := st1.counter, opened := st1.opened, closed := st1.closed }
    else (true, st)

/-- `Sys_CreateListenSockets` (step 3), starting from a freshly resolved
plan: no descriptors opened or closed yet, `socket()` call counter 0. -/
def Sys_CreateListenSockets (env : NetEnv) (plan : List ListenSocketT) :
    Bool × CreateState :=
  createLoop env (plan.length + 1) 0
    { sockets := plan, counter := 0, opened := [], closed := [] }

/-- `daemon_state_t`. -/
inductive DaemonState where
  | no
  | request
  | effective
deriving DecidableEq, Repr

/-- Process-wide state of the security phases: `daemon_state` and the
`null_device` descriptor (-1 when not open). -/
structure SysState where
  daemon_state : DaemonState
  null_device : Int
deriving DecidableEq, Repr

/-- Syscall outcomes for the security-hardening phase. -/
structure SecEnv where
  openNullOk : Bool
  euidIsRoot : Bool
  getpwnamOk : Bool
  chrootOk : Bool
  chdirOk : Bool
  setgidOk : Bool
  setuidOk : Bool

/-- Observable steps of the security-hardening phase, in call order. -/
inductive SecEvent where
  | openNullDev
  | getpwnamCall
  | chrootCall
  | chdirCall
  | setgidCall
  | setuidCall
deriving DecidableEq, Repr

/-- Descriptor `open("/dev/null")` returns on success in this model. -/
def nullFd : Int := 3

/-- The identity-and-filesystem steps of the privilege drop (everything
except the null-device open). -/
def isIdentityStep : SecEvent → Bool
  | SecEvent.openNullDev => false
  | _ => true

/-- `Sys_UnsecureInit` (POSIX build): the body is empty — the WSAStartup
call is Windows-only — so it succeeds, changes nothing, and performs no
observable step. -/
def Sys_UnsecureInit (st : SysState) : Bool × SysState × List SecEvent :=
  (true, st, [])

/-- The superuser part of `Sys_SecurityInit`: if the effective UID is 0,
look up the low-privilege account, `chroot` + `chdir` (short-circuit: a
chroot failure skips the chdir), then `setgid` + `setuid` (short-circuit:
a setgid failure skips the setuid), each failure fatal; otherwise do
nothing. -/
def securityPrivilegeDrop (env : SecEnv) (st : SysState) (tr : List SecEvent) :
    Bool × SysState × List SecEvent :=
  if env.euidIsRoot then
    if env.getpwnamOk = false then
      (false, st, tr ++ [SecEvent.getpwnamCall])
    else if env.chrootOk = false then
      (false, st, tr ++ [SecEvent.getpwnamCall, SecEvent.chrootCall])
    else if env.chdirOk = false then
      (false, st, tr ++ [SecEvent.getpwnamCall, SecEvent.chrootCall,
                         SecEvent.chdirCall])
    else if env.setgidOk = false then
      (false, st, tr ++ [SecEvent.getpwnamCall, SecEvent.chrootCall,
                         SecEvent.chdirCall, SecEvent.setgidCall])
    else if env.setuidOk = false then
      (false, st, tr ++ [SecEvent.getpwnamCall, SecEvent.chrootCall,
                         SecEvent.chdirCall, SecEvent.setgidCall,
                         SecEvent.setuidCall])
    else
      (true, st, tr ++ [SecEvent.getpwnamCall, SecEvent.chrootCall,
                        SecEvent.chdirCall, SecEvent.setgidCall,
                        SecEvent.setuidCall])
  else (true, st, tr)

/-- `Sys_SecurityInit`: first, when a daemon was requested, open
`/dev/null` (before chrooting), failing the phase if it cannot be opened;
then the superuser privilege drop. -/
def Sys_SecurityInit (env : SecEnv) (st : SysState) :
    Bool × SysState × List SecEvent :=
  if st.daemon_state = DaemonState.request then
    if env.openNullOk then
      securityPrivilegeDrop env { st with null_device := nullFd }
        [SecEvent.openNullDev]
    else (false, st, [SecEvent.openNullDev])
  else securityPrivilegeDrop env st []

/-- Outcome of the `daemon(0, 1)` call. -/
structure DaemonEnv where
  daemonOk : Bool

/-- Observable descriptor operations of `Sys_SecureInit`. -/
inductive IoEvent where
  | dup2 (src dst : Int)
  | closeFd (fd : Int)
deriving DecidableEq, Repr

/-- `Sys_SecureInit`: if a daemon was requested, detach; on failure report
the error, set `daemon_state` back to `DAEMON_STATE_NO` and fail, leaving
the standard streams untouched; on success redirect stdin/stdout/stderr
(descriptors 0, 1, 2) to the pre-opened null device, close it, and set
`daemon_state` to `DAEMON_STATE_EFFECTIVE`. -/
def Sys_SecureInit (env : DaemonEnv) (st : SysState) :
    Bool × SysState × List IoEvent :=
  if st.daemon_state = DaemonState.request then
    if env.daemonOk then
      (true, { daemon_state := DaemonState.effective, null_device := -1 },
       [IoEvent.dup2 st.null_device 0, IoEvent.dup2 st.null_device 1,
        IoEvent.dup2 st.null_device 2, IoEvent.closeFd st.null_device])
    else
      (false, { daemon_state := DaemonState.no, null_device := st.null_device },
       [])
  else (true, st, [])

/-- Concrete resolved addresses used by the concrete runs below. -/
def addrA : SockaddrT :=
  { family := AddrFamily.af_inet, host := ['a'], port := "27900" }

/-- An IPv6 wildcard address. -/
def addrB : SockaddrT :=
  { family := AddrFamily.af_inet6, host := ['b'], port := "27900" }

/-- A second IPv4 address. -/
def addrC : SockaddrT :=
  { family := AddrFamily.af_inet, host := ['c'], port := "27910" }

/-- A three-entry optional (wildcard-default) plan: IPv4, IPv6, IPv4. -/
def planThree : List ListenSocketT :=
  [wildcardSocketEntry addrA, wildcardSocketEntry addrB, wildcardSocketEntry addrC]

/-- Kernel without IPv6: the first `socket()` call (IPv4) succeeds, every
later call fails with EAFNOSUPPORT (the second and third calls are both
made for the IPv6 entry, which the loop re-examines after compacting). -/
def envNoInet6 : NetEnv :=
  { socketRes := fun n => if n = 0 then none else some SockErr.afnosupport,
    setsockoptOk := fun _ => true,
    bindOk := fun _ => true }

/-- A two-entry non-optional plan (declared addresses). -/
def planTwoDeclared : List ListenSocketT :=
  [declaredSocketEntry ['x'] addrA ['x'], declaredSocketEntry ['y'] addrC ['y']]

/-- Socket creation succeeds, bind fails for the second descriptor (4). -/
def envBindFailSecond : NetEnv :=
  { socketRes := fun _ => none,
    setsockoptOk := fun _ => true,
    bindOk := fun fd => fd != 4 }

/-- A lookup environment that succeeds on everything and records the host
and service arguments it was called with into the resolved address. -/
def envEcho : ResolveEnv :=
  { getaddrinfo := fun h p f => some { family := f, host := h.getD [], port := p } }

/-- A lookup environment in which every lookup fails. -/
def envNoLookup : ResolveEnv :=
  { getaddrinfo := fun _ _ _ => none }

/-- A lookup environment that fails exactly for service "27902". -/
def envFail27902 : ResolveEnv :=
  { getaddrinfo := fun h p f =>
      if p = "27902" then none
      else some { family := f, host := h.getD [], port := p } }

/-- Process state with a daemon requested and the null device not open. -/
def stReq : SysState := { daemon_state := DaemonState.request, null_device := -1 }

/-- Security environment in which every syscall succeeds, running as root. -/
def envSecAllOk : SecEnv :=
  { openNullOk := true, euidIsRoot := true, getpwnamOk := true, chrootOk := true,
    chdirOk := true, setgidOk := true, setuidOk := true }

/-- Security environment: not root, and `open("/dev/null")` fails. -/
def envSecNoRootOpenFails : SecEnv :=
  { openNullOk := false, euidIsRoot := false, getpwnamOk := true,
    chrootOk := true, chdirOk := true, setgidOk := true, setuidOk := true }

/-- Environment for `getnameinfo` with `NI_NUMERICHOST | NI_NUMERICSERV`:
numeric host and service strings, `none` on conversion failure. -/
structure NameEnv where
  getnameinfo : SockaddrT → Option (String × String)

/-- `Sys_SockaddrToString`: a leading bracket for IPv6, the numeric host,
a closing bracket for IPv6, then always `:` and the numeric port; on a
`getnameinfo` failure the buffer is overwritten with a fixed sentinel. -/
def Sys_SockaddrToString (env : NameEnv) (address : SockaddrT) : String :=
  match env.getnameinfo address with
  | some hp =>
    (if address.family = AddrFamily.af_inet6 then "[" ++ hp.1 ++ "]" else hp.1)
      ++ ":" ++ hp.2
  | none => "NON-PRINTABLE ADDRESS"

/-- A `getnameinfo` that prints the model address's own host and port. -/
def nameEnvNumeric : NameEnv :=
  { getnameinfo := fun a => some (String.mk a.host, a.port) }

/-- The documentation example address 203.0.113.5:27900. -/
def addrV4Doc : SockaddrT :=
  { family := AddrFamily.af_inet, host := String.toList "203.0.113.5",
    port := "27900" }

/-- The IPv6 loopback on port 27900. -/
def addrV6Loop : SockaddrT :=
  { family := AddrFamily.af_inet6, host := String.toList "::1", port := "27900" }

theorem takeWhile_bne_of_not_mem (c : Char) (l : List Char) (hc : c ∉ l) :
    l.takeWhile (fun x => x != c) = l := by
  induction l with
  | nil => rfl
  | cons a t ih =>
    have ha : a ≠ c := fun e => hc (e ▸ List.mem_cons_self a t)
    have ht := ih (fun m => hc (List.mem_cons_of_mem a m))
    simp [List.takeWhile_cons, bne_iff_ne, ha, ht]

theorem takeWhile_bne_append (c : Char) (h r : List Char) (hc : c ∉ h) :
    (h ++ c :: r).takeWhile (fun x => x != c) = h := by
  induction h with
  | nil => simp [List.takeWhile_cons]
  | cons a t ih =>
    have ha : a ≠ c := fun e => hc (e ▸ List.mem_cons_self a t)
    have ht := ih (fun m => hc (List.mem_cons_of_mem a m))
    simp [List.takeWhile_cons, bne_iff_ne, ha, ht]

theorem dropWhile_bne_append (c : Char) (h r : List Char) (hc : c ∉ h) :
    (h ++ c :: r).dropWhile (fun x => x != c) = c :: r := by
  induction h with
  | nil => simp [List.dropWhile_cons]
  | cons a t ih =>
    have ha : a ≠ c := fun e => hc (e ▸ List.mem_cons_self a t)
    have ht := ih (fun m => hc (List.mem_cons_of_mem a m))
    simp [List.dropWhile_cons, bne_iff_ne, ha, ht]

theorem head?_append_cons_ne (h r : List Char) (c : Char)
    (hh : h.head? ≠ some '[') (hc : c ≠ '[') :
    (h ++ c :: r).head? ≠ some '[' := by
  cases h with
  | nil => simpa using hc
  | cons a t =>
    have ha : a ≠ '[' := by simpa using hh
    simpa using ha

/-- C3 (amended): parsing splits the token exactly as the claim describes
— no colon means the whole token is the host with no family hint; exactly
one colon splits the token at that colon with the host on the left;
two or more colons make the whole token a bare IPv6 literal with no
split; a bracketed token yields the text between the brackets with family
hint IPv6, a missing closing bracket or a character other than ':' after
']' is a syntax error — but the port portion of the token is never
extracted: the resolved address always comes from a lookup whose service
argument is the separately supplied `port_name` parameter, and the text
after the split point is discarded. -/
theorem C3_parse_split_no_port_extraction :
    (∀ a : List Char, a.head? ≠ some '[' → (':' : Char) ∉ a →
        parseAddressToken a = some (a, AddrFamily.af_unspec))
    ∧ (∀ h r : List Char, h.head? ≠ some '[' → (':' : Char) ∉ h →
        (':' : Char) ∉ r →
        parseAddressToken (h ++ ':' :: r) = some (h, AddrFamily.af_unspec))
    ∧ (∀ h r1 r2 : List Char, h.head? ≠ some '[' → (':' : Char) ∉ h →
        parseAddressToken (h ++ ':' :: (r1 ++ ':' :: r2)) =
          some (h ++ ':' :: (r1 ++ ':' :: r2), AddrFamily.af_inet6))
    ∧ (∀ h r : List Char, (']' : Char) ∉ h →
        (r.head? = none ∨ r.head? = some ':') →
        parseAddressToken ('[' :: (h ++ ']' :: r)) = some (h, AddrFamily.af_inet6))
    ∧ (∀ (h r : List Char) (c : Char), (']' : Char) ∉ h → c ≠ ':' →
        parseAddressToken ('[' :: (h ++ ']' :: c :: r)) = none)
    ∧ (∀ r : List Char, (']' : Char) ∉ r → parseAddressToken ('[' :: r) = none)
    ∧ (∀ (env : ResolveEnv) (address : List Char) (port_name : String)
        (sa : SockaddrT) (np : List Char),
        Sys_StringToSockaddr env address port_name = some (sa, np) →
        ∃ fam, parseAddressToken address = some (np, fam) ∧ np.length < 128 ∧
          env.getaddrinfo (some np) port_name fam = some sa) := by
  refine ⟨?_, ?_, ?_, ?_, ?_, ?_, ?_⟩
  · intro a hb hc
    unfold parseAddressToken
    rw [if_neg hb, if_neg hc]
  · intro h r hh hch hcr
    have hmem : (':' : Char) ∈ h ++ ':' :: r :=
      List.mem_append_right h (List.mem_cons_self ':' r)
    have hb := head?_append_cons_ne h r ':' hh (by decide)
    unfold parseAddressToken
    rw [if_neg hb, if_pos hmem, dropWhile_bne_append ':' h r hch]
    simp only [List.tail_cons]
    rw [if_neg hcr, takeWhile_bne_append ':' h r hch]
  · intro h r1 r2 hh hch
    have hmem : (':' : Char) ∈ h ++ ':' :: (r1 ++ ':' :: r2) :=
      List.mem_append_right h (List.mem_cons_self ':' _)
    have hb := head?_append_cons_ne h (r1 ++ ':' :: r2) ':' hh (by decide)
    have hmem2 : (':' : Char) ∈ r1 ++ ':' :: r2 :=
      List.mem_append_right r1 (List.mem_cons_self ':' r2)
    unfold parseAddressToken
    rw [if_neg hb, if_pos hmem, dropWhile_bne_append ':' h _ hch]
    simp only [List.tail_cons]
    rw [if_pos hmem2]
  · intro h r hbr hhead
    have hmem : (']' : Char) ∈ h ++ ']' :: r :=
      List.mem_append_right h (List.mem_cons_self ']' r)
    have h1 : parseAddressToken ('[' :: (h ++ ']' :: r)) =
        (if (']' : Char) ∈ h ++ ']' :: r then
          (if ((h ++ ']' :: r).dropWhile (fun c => c != ']')).tail.head? = none ∨
              ((h ++ ']' :: r).dropWhile (fun c => c != ']')).tail.head? =
                some ':' then
            some ((h ++ ']' :: r).takeWhile (fun c => c != ']'),
              AddrFamily.af_inet6)
          else none)
        else none) := rfl
    rw [h1, if_pos hmem, dropWhile_bne_append ']' h r hbr]
    simp only [List.tail_cons]
    rw [if_pos hhead, takeWhile_bne_append ']' h r hbr]
  · intro h r c hbr hc
    have hmem : (']' : Char) ∈ h ++ ']' :: c :: r :=
      List.mem_append_right h (List.mem_cons_self ']' _)
    have hcond : ¬((c :: r).head? = none ∨ (c :: r).head? = some ':') := by
      simp [hc]
    have h1 : parseAddressToken ('[' :: (h ++ ']' :: c :: r)) =
        (if (']' : Char) ∈ h ++ ']' :: c :: r then
          (if ((h ++ ']' :: c :: r).dropWhile (fun x => x != ']')).tail.head? =
              none ∨
              ((h ++ ']' :: c :: r).dropWhile (fun x => x != ']')).tail.head? =
                some ':' then
            some ((h ++ ']' :: c :: r).takeWhile (fun x => x != ']'),
              AddrFamily.af_inet6)
          else none)
        else none) := rfl
    rw [h1, if_pos hmem, dropWhile_bne_append ']' h (c :: r) hbr]
    simp only [List.tail_cons]
    rw [if_neg hcond]
  · intro r hbr
    have h1 : parseAddressToken ('[' :: r) =
        (if (']' : Char) ∈ r then
          (if (r.dropWhile (fun x => x != ']')).tail.head? = none ∨
              (r.dropWhile (fun x => x != ']')).tail.head? = some ':' then
            some (r.takeWhile (fun x => x != ']'), AddrFamily.af_inet6)
          else none)
        else none) := rfl
    rw [h1, if_neg hbr]
  · intro env address port_name sa np hres
    unfold Sys_StringToSockaddr at hres
    rcases hp : parseAddressToken address with _ | ⟨host, fam⟩
    · simp [hp] at hres
    · simp only [hp] at hres
      by_cases hlen : 128 ≤ host.length
      · rw [if_pos hlen] at hres; simp at hres
      · rw [if_neg hlen] at hres
        rcases hg : Sys_BuildSockaddr env (some host) port_name fam with _ | sa2
        · simp [hg] at hres
        · simp only [hg, Option.some.injEq, Prod.mk.injEq] at hres
          rcases hres with ⟨hsa, hnp⟩
          subst hsa
          subst hnp
          exact ⟨fam, rfl, by omega, hg⟩

/-- C3 counterexample: the claim says the port portion of the token
("27901" in "example.com:27901") is used as the port of the resolved
address; with a lookup environment that records the service argument it
was called with, the resolved address carries the caller-supplied port
"27960", not the token's "27901". -/
theorem C3_counterexample :
    (Sys_StringToSockaddr envEcho (String.toList "example.com:27901")
        "27960").map (fun r => r.1.port) = some "27960"
    ∧ (Sys_StringToSockaddr envEcho (String.toList "example.com:27901")
        "27960").map (fun r => r.1.port) ≠ some "27901" := by
  constructor
  · rfl
  · decide

/-- Witness for C3: the amended theorem applied to the bracketed token
"[::1]:27900". -/
theorem C3_parse_witness :
    parseAddressToken (String.toList "[::1]:27900") =
      some (String.toList "::1", AddrFamily.af_inet6) := by
  have h := C3_parse_split_no_port_extraction.2.2.2.1 (String.toList "::1")
    (String.toList ":27900") (by decide) (Or.inr rfl)
  exact h

theorem processRequests_append (env : ResolveEnv) (l1 l2 : List ResolveRequest)
    (acc : List ListenSocketT) :
    processRequests env (l1 ++ l2) acc =
      match processRequests env l1 acc with
      | (true, a) => processRequests env l2 a
      | (false, a) => (false, a) := by
  induction l1 generalizing acc with
  | nil => simp [processRequests]
  | cons q qs ih =>
    simp only [List.cons_append, processRequests]
    cases resolveRequest env q with
    | none => rfl
    | some e => exact ih _

theorem resolveWildcardPorts_eq (env : ResolveEnv) (f : AddrFamily)
    (ps : List String) (acc : List ListenSocketT) :
    resolveWildcardPorts env f ps acc =
      processRequests env (ps.map (ResolveRequest.wildcard f)) acc := by
  induction ps generalizing acc with
  | nil => rfl
  | cons p ps ih =>
    simp only [resolveWildcardPorts, List.map_cons, processRequests,
      resolveRequest]
    cases Sys_BuildSockaddr env none p f with
    | none => rfl
    | some sa => exact ih _

theorem resolveWildcardFamilies_eq (env : ResolveEnv) (ports : List String)
    (fams : List AddrFamily) (acc : List ListenSocketT) :
    resolveWildcardFamilies env ports fams acc =
      processRequests env (wildcardRequests ports fams) acc := by
  induction fams generalizing acc with
  | nil => rfl
  | cons f fs ih =>
    simp only [resolveWildcardFamilies, wildcardRequests]
    rw [processRequests_append, ← resolveWildcardPorts_eq]
    cases hr : resolveWildcardPorts env f ports acc with
    | mk b a =>
      cases b
      · rfl
      · exact ih a

theorem resolveDeclaredPorts_eq (env : ResolveEnv) (a : List Char)
    (ps : List String) (acc : List ListenSocketT) :
    resolveDeclaredPorts env a ps acc =
      processRequests env (ps.map (ResolveRequest.declared a)) acc := by
  induction ps generalizing acc with
  | nil => rfl
  | cons p ps ih =>
    simp only [resolveDeclaredPorts, List.map_cons, processRequests,
      resolveRequest]
    cases Sys_StringToSockaddr env a p with
    | none => rfl
    | some r => exact ih _

theorem resolveDeclaredAddresses_eq (env : ResolveEnv) (ports : List String)
    (addrs : List (List Char)) (acc : List ListenSocketT) :
    resolveDeclaredAddresses env ports addrs acc =
      processRequests env (declaredRequests ports addrs) acc := by
  induction addrs generalizing acc with
  | nil => rfl
  | cons a rest ih =>
    simp only [resolveDeclaredAddresses, declaredRequests]
    rw [processRequests_append, ← resolveDeclaredPorts_eq]
    cases hr : resolveDeclaredPorts env a ports acc with
    | mk b acc2 =>
      cases b
      · rfl
      · exact ih acc2

theorem Sys_ResolveListenAddresses_eq (env : ResolveEnv)
    (addrs : List (List Char)) (ports : List String)
    (init : List ListenSocketT) :
    Sys_ResolveListenAddresses env addrs ports init =
      processRequests env (requestsOf addrs ports) init := by
  cases addrs with
  | nil =>
    simpa [Sys_ResolveListenAddresses, requestsOf] using
      resolveWildcardFamilies_eq env ports
        [AddrFamily.af_inet, AddrFamily.af_inet6] init
  | cons a rest =>
    simpa [Sys_ResolveListenAddresses, requestsOf] using
      resolveDeclaredAddresses_eq env ports (a :: rest) init

theorem processRequests_success (env : ResolveEnv) (qs : List ResolveRequest) :
    ∀ acc : List ListenSocketT, (∀ q ∈ qs, resolveRequest env q ≠ none) →
      processRequests env qs acc =
        (true, acc ++ qs.filterMap (resolveRequest env)) := by
  induction qs with
  | nil => intro acc _; simp [processRequests]
  | cons q qs ih =>
    intro acc hok
    rcases hr : resolveRequest env q with _ | e
    · exact absurd hr (hok q (List.mem_cons_self q qs))
    · have e1 : processRequests env (q :: qs) acc =
          processRequests env qs (acc ++ [e]) := by simp [processRequests, hr]
      rw [e1, ih _ (fun q2 hm => hok q2 (List.mem_cons_of_mem q hm))]
      simp [List.filterMap_cons, hr]

theorem processRequests_ok_mem (env : ResolveEnv) (qs : List ResolveRequest) :
    ∀ acc : List ListenSocketT, (processRequests env qs acc).1 = true →
      ∀ q ∈ qs, resolveRequest env q ≠ none := by
  induction qs with
  | nil => intro acc _ q hm; cases hm
  | cons q qs ih =>
    intro acc h q2 hm
    rcases hr : resolveRequest env q with _ | e
    · exfalso
      have e1 : processRequests env (q :: qs) acc = (false, acc) := by
        simp [processRequests, hr]
      rw [e1] at h
      simp at h
    · have e1 : processRequests env (q :: qs) acc =
          processRequests env qs (acc ++ [e]) := by simp [processRequests, hr]
      rw [e1] at h
      rcases List.mem_cons.mp hm with h1 | h2
      · subst h1; simp [hr]
      · exact ih _ h q2 h2

theorem processRequests_failure (env : ResolveEnv) (pre : List ResolveRequest)
    (q0 : ResolveRequest) (rest : List ResolveRequest) :
    ∀ acc : List ListenSocketT, (∀ q ∈ pre, resolveRequest env q ≠ none) →
      resolveRequest env q0 = none →
      processRequests env (pre ++ q0 :: rest) acc =
        (false, acc ++ pre.filterMap (resolveRequest env)) := by
  induction pre with
  | nil => intro acc _ hq0; simp [processRequests, hq0]
  | cons q qs ih =>
    intro acc hok hq0
    rcases hr : resolveRequest env q with _ | e
    · exact absurd hr (hok q (List.mem_cons_self q qs))
    · have e1 : processRequests env ((q :: qs) ++ q0 :: rest) acc =
          processRequests env (qs ++ q0 :: rest) (acc ++ [e]) := by
        simp [processRequests, hr]
      rw [e1, ih _ (fun q2 hm => hok q2 (List.mem_cons_of_mem q hm)) hq0]
      simp [List.filterMap_cons, hr]

theorem length_filterMap_of_forall_ne_none {α β : Type} (f : α → Option β) :
    ∀ l : List α, (∀ a ∈ l, f a ≠ none) →
      (l.filterMap f).length = l.length := by
  intro l
  induction l with
  | nil => intro _; rfl
  | cons a t ih =>
    intro h
    rcases hf : f a with _ | b
    · exact absurd hf (h a (List.mem_cons_self a t))
    · simp [List.filterMap_cons, hf,
        ih (fun a2 hm => h a2 (List.mem_cons_of_mem a hm))]

theorem filterMap_wildcard_map (env : ResolveEnv) (f : AddrFamily) :
    ∀ ps : List String, (∀ p ∈ ps, env.getaddrinfo none p f ≠ none) →
      (ps.map (ResolveRequest.wildcard f)).filterMap (resolveRequest env) =
        ps.map (wildcardEntryOf env f) := by
  intro ps
  induction ps with
  | nil => intro _; rfl
  | cons p ps ih =>
    intro hok
    rcases hg : env.getaddrinfo none p f with _ | sa
    · exact absurd hg (hok p (List.mem_cons_self p ps))
    · simp [List.filterMap_cons, resolveRequest, Sys_BuildSockaddr, hg,
        wildcardEntryOf,
        ih (fun p2 hm => hok p2 (List.mem_cons_of_mem p hm))]

theorem filterMap_declared_map (env : ResolveEnv) (a : List Char) :
    ∀ ps : List String, (∀ p ∈ ps, Sys_StringToSockaddr env a p ≠ none) →
      (ps.map (ResolveRequest.declared a)).filterMap (resolveRequest env) =
        ps.map (declaredEntryOf env a) := by
  intro ps
  induction ps with
  | nil => intro _; rfl
  | cons p ps ih =>
    intro hok
    rcases hs : Sys_StringToSockaddr env a p with _ | r
    · exact absurd hs (hok p (List.mem_cons_self p ps))
    · simp [List.filterMap_cons, resolveRequest, hs, declaredEntryOf,
        ih (fun p2 hm => hok p2 (List.mem_cons_of_mem p hm))]

theorem filterMap_declared_requests (env : ResolveEnv) (ports : List String) :
    ∀ addrs : List (List Char),
      (∀ q ∈ declaredRequests ports addrs, resolveRequest env q ≠ none) →
      (declaredRequests ports addrs).filterMap (resolveRequest env) =
        declaredExpected env ports addrs := by
  intro addrs
  induction addrs with
  | nil => intro _; rfl
  | cons a rest ih =>
    intro hok
    have hleft : ∀ p ∈ ports, Sys_StringToSockaddr env a p ≠ none := by
      intro p hp
      have hm : ResolveRequest.declared a p ∈ declaredRequests ports (a :: rest) := by
        simp only [declaredRequests]
        exact List.mem_append_left _ (List.mem_map_of_mem _ hp)
      have := hok _ hm
      simpa [resolveRequest, Option.map_eq_none'] using this
    have hright : ∀ q ∈ declaredRequests ports rest, resolveRequest env q ≠ none := by
      intro q hq
      exact hok q (by simp only [declaredRequests]; exact List.mem_append_right _ hq)
    simp only [declaredRequests, declaredExpected, List.filterMap_append,
      filterMap_declared_map env a ports hleft, ih hright]

theorem declaredExpected_length (env : ResolveEnv) (ports : List String) :
    ∀ addrs : List (List Char),
      (declaredExpected env ports addrs).length =
        addrs.length * ports.length := by
  intro addrs
  induction addrs with
  | nil => simp [declaredExpected]
  | cons a rest ih =>
    simp [declaredExpected, ih]
    ring

theorem declaredEntryOf_fields (env : ResolveEnv) (a : List Char) (p : String) :
    (declaredEntryOf env a p).optional = false ∧
      (declaredEntryOf env a p).local_addr_name = some a := by
  unfold declaredEntryOf
  cases Sys_StringToSockaddr env a p with
  | none => simp [declaredSocketEntry]
  | some r => simp [declaredSocketEntry]

theorem mem_declaredExpected (env : ResolveEnv) (ports : List String) :
    ∀ (addrs : List (List Char)) (e : ListenSocketT),
      e ∈ declaredExpected env ports addrs →
      e.optional = false ∧ ∃ a ∈ addrs, e.local_addr_name = some a := by
  intro addrs
  induction addrs with
  | nil => intro e hm; cases hm
  | cons a rest ih =>
    intro e hm
    rcases List.mem_append.mp hm with h1 | h2
    · rcases List.mem_map.mp h1 with ⟨p, _, rfl⟩
      refine ⟨(declaredEntryOf_fields env a p).1, a, List.mem_cons_self a rest,
        (declaredEntryOf_fields env a p).2⟩
    · rcases ih e h2 with ⟨hopt, a2, ha2, hname⟩
      exact ⟨hopt, a2, List.mem_cons_of_mem a ha2, hname⟩

/-- C7 (amended): a name/service lookup failure on the synthesized
wildcard defaults is just as fatal as one on a declared address: the
no-declared-addresses path of `Sys_ResolveListenAddresses` succeeds
exactly when every wildcard lookup (both families, every port) succeeds,
so it does fail with a resolution error whenever one of those lookups
fails — optionality only exempts the later socket-creation stage, not
resolution. -/
theorem C7_wildcard_lookup_failure_is_fatal (env : ResolveEnv)
    (ports : List String) :
    (Sys_ResolveListenAddresses env [] ports []).1 = true ↔
      ∀ p ∈ ports, env.getaddrinfo none p AddrFamily.af_inet ≠ none ∧
        env.getaddrinfo none p AddrFamily.af_inet6 ≠ none := by
  rw [Sys_ResolveListenAddresses_eq]
  constructor
  · intro h p hp
    have hok := processRequests_ok_mem env (requestsOf [] ports) [] h
    constructor
    · have hm : ResolveRequest.wildcard AddrFamily.af_inet p ∈
          requestsOf [] ports := by
        simp only [requestsOf, wildcardRequests, List.append_nil]
        exact List.mem_append_left _ (List.mem_map_of_mem _ hp)
      simpa [resolveRequest, Sys_BuildSockaddr, Option.map_eq_none'] using
        hok _ hm
    · have hm : ResolveRequest.wildcard AddrFamily.af_inet6 p ∈
          requestsOf [] ports := by
        simp only [requestsOf, wildcardRequests, List.append_nil]
        exact List.mem_append_right _ (List.mem_map_of_mem _ hp)
      simpa [resolveRequest, Sys_BuildSockaddr, Option.map_eq_none'] using
        hok _ hm
  · intro hall
    have hok : ∀ q ∈ requestsOf [] ports, resolveRequest env q ≠ none := by
      intro q hq
      simp only [requestsOf, wildcardRequests, List.append_nil,
        List.mem_append, List.mem_map] at hq
      rcases hq with ⟨p, hp, rfl⟩ | ⟨p, hp, rfl⟩
      · simp [resolveRequest, Sys_BuildSockaddr, Option.map_eq_none',
          (hall p hp).1]
      · simp [resolveRequest, Sys_BuildSockaddr, Option.map_eq_none',
          (hall p hp).2]
    rw [processRequests_success env _ [] hok]

/-- C7 counterexample: with an environment in which wildcard lookups fail,
the no-declared-addresses path returns failure — refuting the claim that a
resolution error is never produced for the synthesized wildcard
defaults. -/
theorem C7_counterexample :
    (Sys_ResolveListenAddresses envNoLookup [] ["27900"] []).1 = false := by
  decide

/-- C8: with an empty registry, a successful resolution produces exactly
the two-family-by-ports cartesian product (families outer, ports inner),
2·p entries, every one optional with no declared name; with n declared
addresses, it produces exactly the addresses-by-ports cartesian product
(addresses outer, ports inner), n·p entries, none optional, each carrying
its declared name (and, inside `declaredEntryOf`, the parsed no-port host
substring). -/
theorem C8_resolution_plan_shape :
    (∀ (env : ResolveEnv) (ports : List String),
      (Sys_ResolveListenAddresses env [] ports []).1 = true →
        (Sys_ResolveListenAddresses env [] ports []).2 =
            ports.map (wildcardEntryOf env AddrFamily.af_inet) ++
              ports.map (wildcardEntryOf env AddrFamily.af_inet6) ∧
          (Sys_ResolveListenAddresses env [] ports []).2.length =
            2 * ports.length ∧
          ∀ e ∈ (Sys_ResolveListenAddresses env [] ports []).2,
            e.optional = true ∧ e.local_addr_name = none)
    ∧ (∀ (env : ResolveEnv) (addrs : List (List Char)) (ports : List String),
        addrs ≠ [] →
        (Sys_ResolveListenAddresses env addrs ports []).1 = true →
          (Sys_ResolveListenAddresses env addrs ports []).2 =
              declaredExpected env ports addrs ∧
            (Sys_ResolveListenAddresses env addrs ports []).2.length =
              addrs.length * ports.length ∧
            ∀ e ∈ (Sys_ResolveListenAddresses env addrs ports []).2,
              e.optional = false ∧ ∃ a ∈ addrs, e.local_addr_name = some a) := by
  constructor
  · intro env ports h
    rw [Sys_ResolveListenAddresses_eq] at h
    have hok := processRequests_ok_mem env (requestsOf [] ports) [] h
    have hok4 : ∀ p ∈ ports, env.getaddrinfo none p AddrFamily.af_inet ≠ none := by
      intro p hp
      have hm : ResolveRequest.wildcard AddrFamily.af_inet p ∈
          requestsOf [] ports := by
        simp only [requestsOf, wildcardRequests, List.append_nil]
        exact List.mem_append_left _ (List.mem_map_of_mem _ hp)
      simpa [resolveRequest, Sys_BuildSockaddr, Option.map_eq_none'] using
        hok _ hm
    have hok6 : ∀ p ∈ ports, env.getaddrinfo none p AddrFamily.af_inet6 ≠ none := by
      intro p hp
      have hm : ResolveRequest.wildcard AddrFamily.af_inet6 p ∈
          requestsOf [] ports := by
        simp only [requestsOf, wildcardRequests, List.append_nil]
        exact List.mem_append_right _ (List.mem_map_of_mem _ hp)
      simpa [resolveRequest, Sys_BuildSockaddr, Option.map_eq_none'] using
        hok _ hm
    have hshape : (Sys_ResolveListenAddresses env [] ports []).2 =
        ports.map (wildcardEntryOf env AddrFamily.af_inet) ++
          ports.map (wildcardEntryOf env AddrFamily.af_inet6) := by
      rw [Sys_ResolveListenAddresses_eq,
        processRequests_success env _ [] hok]
      simp only [requestsOf, wildcardRequests, List.append_nil,
        List.filterMap_append, filterMap_wildcard_map env _ ports hok4,
        filterMap_wildcard_map env _ ports hok6, List.nil_append]
    refine ⟨hshape, ?_, ?_⟩
    · rw [hshape]
      simp [two_mul]
    · intro e he
      rw [hshape] at he
      rcases List.mem_append.mp he with h1 | h1 <;>
        rcases List.mem_map.mp h1 with ⟨p, _, rfl⟩ <;>
        simp [wildcardEntryOf, wildcardSocketEntry]
  · intro env addrs ports hne h
    have hreq : requestsOf addrs ports = declaredRequests ports addrs := by
      cases addrs with
      | nil => exact absurd rfl hne
      | cons a rest => rfl
    rw [Sys_ResolveListenAddresses_eq, hreq] at h
    have hok := processRequests_ok_mem env (declaredRequests ports addrs) [] h
    have hshape : (Sys_ResolveListenAddresses env addrs ports []).2 =
        declaredExpected env ports addrs := by
      rw [Sys_ResolveListenAddresses_eq, hreq,
        processRequests_success env _ [] hok,
        filterMap_declared_requests env ports addrs hok]
      simp
    refine ⟨hshape, ?_, ?_⟩
    · rw [hshape, declaredExpected_length]
    · intro e he
      rw [hshape] at he
      exact mem_declaredExpected env ports addrs e he

/-- Witness for C8: the wildcard half applied to a one-port configuration. -/
theorem C8_witness :
    (Sys_ResolveListenAddresses envEcho [] ["27900"] []).2 =
        ["27900"].map (wildcardEntryOf envEcho AddrFamily.af_inet) ++
          ["27900"].map (wildcardEntryOf envEcho AddrFamily.af_inet6) ∧
      (Sys_ResolveListenAddresses envEcho [] ["27900"] []).2.length = 2 := by
  have h := C8_resolution_plan_shape.1 envEcho ["27900"] (by decide)
  exact ⟨h.1, by simpa using h.2.1⟩

/-- C10: resolution is not atomic on failure — if some request of the
flattened plan fails while everything before it succeeded, the function
returns failure immediately and the socket table keeps exactly the
entries resolved before the failing one (initial table plus one entry per
successfully resolved request), with no rollback. -/
theorem C10_resolution_not_atomic (env : ResolveEnv) (addrs : List (List Char))
    (ports : List String) (init : List ListenSocketT)
    (pre : List ResolveRequest) (q : ResolveRequest)
    (rest : List ResolveRequest)
    (hsplit : requestsOf addrs ports = pre ++ q :: rest)
    (hok : ∀ r ∈ pre, resolveRequest env r ≠ none)
    (hq : resolveRequest env q = none) :
    Sys_ResolveListenAddresses env addrs ports init =
      (false, init ++ pre.filterMap (resolveRequest env)) ∧
    (init ++ pre.filterMap (resolveRequest env)).length =
      init.length + pre.length := by
  constructor
  · rw [Sys_ResolveListenAddresses_eq, hsplit]
    exact processRequests_failure env pre q rest init hok hq
  · simp [length_filterMap_of_forall_ne_none (resolveRequest env) pre hok]

/-- Witness for C10: one declared address, two ports, the second port's
lookup fails; the run fails with exactly the first entry retained. -/
theorem C10_witness :
    (Sys_ResolveListenAddresses envFail27902 [String.toList "h"]
        ["27900", "27902"] []).1 = false ∧
      (Sys_ResolveListenAddresses envFail27902 [String.toList "h"]
        ["27900", "27902"] []).2.length = 1 := by
  have h := C10_resolution_not_atomic envFail27902 [String.toList "h"]
    ["27900", "27902"] [] [ResolveRequest.declared (String.toList "h") "27900"]
    (ResolveRequest.declared (String.toList "h") "27902") [] (by decide)
    (by decide) (by decide)
  rw [h.1]
  exact ⟨rfl, rfl⟩

theorem removeCompacted_length (s : List ListenSocketT) (i : Nat)
    (h : i < s.length) : (removeCompacted s i).length = s.length - 1 := by
  unfold removeCompacted
  by_cases h2 : i + 1 < s.length
  · rw [if_pos h2]
    simp only [List.length_append, List.length_take, List.length_drop]
    omega
  · rw [if_neg h2]
    simp only [List.length_take]
    omega

theorem removeCompacted_take (s : List ListenSocketT) (i : Nat)
    (h : i < s.length) : (removeCompacted s i).take i = s.take i := by
  unfold removeCompacted
  by_cases h2 : i + 1 < s.length
  · rw [if_pos h2, List.append_assoc]
    have hlen : (s.take i).length = i := by
      simp only [List.length_take]
      omega
    calc (s.take i ++ ((s.drop (i + 1)).take (s.length - i - 2) ++
            (s.drop (s.length - 2)).take 1)).take i
        = (s.take i ++ ((s.drop (i + 1)).take (s.length - i - 2) ++
            (s.drop (s.length - 2)).take 1)).take (s.take i).length := by
          rw [hlen]
      _ = s.take i := List.take_left _ _
  · rw [if_neg h2, List.take_take]
    congr 1
    omega

theorem removeCompacted_drop_mem (s : List ListenSocketT) (i : Nat)
    (_h : i < s.length) :
    ∀ e ∈ (removeCompacted s i).drop i, e ∈ s.drop i := by
  unfold removeCompacted
  by_cases h2 : i + 1 < s.length
  · rw [if_pos h2, List.append_assoc]
    intro e he
    have hlen : (s.take i).length = i := by
      simp only [List.length_take]
      omega
    rw [List.drop_left' hlen] at he
    rcases List.mem_append.mp he with h3 | h3
    · have h4 : e ∈ s.drop (i + 1) := List.take_subset _ _ h3
      have h5 : s.drop (i + 1) = (s.drop i).drop 1 := by
        rw [List.drop_drop]
      rw [h5] at h4
      exact List.drop_subset _ _ h4
    · have h4 : e ∈ s.drop (s.length - 2) := List.take_subset _ _ h3
      have h5 : s.drop (s.length - 2) = (s.drop i).drop (s.length - 2 - i) := by
        rw [List.drop_drop]
        congr 1
        omega
      rw [h5] at h4
      exact List.drop_subset _ _ h4
  · rw [if_neg h2]
    intro e he
    rw [List.drop_take] at he
    exact List.take_subset _ _ he

theorem take_succ_set (s : List ListenSocketT) (i : Nat) (x : ListenSocketT)
    (h : i < s.length) : (s.set i x).take (i + 1) = s.take i ++ [x] := by
  rw [List.set_eq_take_cons_drop x h]
  have hlen : (s.take i).length = i := by
    simp only [List.length_take]
    omega
  calc (s.take i ++ x :: s.drop (i + 1)).take (i + 1)
      = (s.take i ++ x :: s.drop (i + 1)).take ((s.take i).length + 1) := by
        rw [hlen]
    _ = s.take i ++ (x :: s.drop (i + 1)).take 1 := List.take_append 1
    _ = s.take i ++ [x] := by simp

theorem drop_succ_set (s : List ListenSocketT) (i : Nat) (x : ListenSocketT)
    (h : i < s.length) : (s.set i x).drop (i + 1) = s.drop (i + 1) := by
  rw [List.set_eq_take_cons_drop x h]
  have hsplit : s.take i ++ x :: s.drop (i + 1) =
      (s.take i ++ [x]) ++ s.drop (i + 1) := by simp
  rw [hsplit]
  apply List.drop_left'
  simp only [List.length_append, List.length_take, List.length_cons,
    List.length_nil]
  omega

theorem mem_closed_of_mem_sockets (st : CreateState) (h : Int)
    (he : ∃ e ∈ st.sockets, e.socket = h) (hge : fdBase ≤ h) :
    h ∈ (Sys_CloseAllSockets st).closed := by
  rcases he with ⟨e, hme, hse⟩
  unfold Sys_CloseAllSockets
  refine List.mem_append_right _ ?_
  refine List.mem_map.mpr ⟨e, ?_, hse⟩
  refine List.mem_filter.mpr ⟨hme, ?_⟩
  have hne : e.socket ≠ -1 := by
    rw [hse]
    unfold fdBase at hge
    omega
  exact bne_iff_ne.mpr hne

theorem createLoop_failure_rollback (env : NetEnv) :
    ∀ (fuel i : Nat) (st st2 : CreateState),
      st.sockets.length - i < fuel →
      st.opened = (st.sockets.take i).map (fun e => e.socket) →
      (∀ e ∈ st.sockets.drop i, e.socket = 0) →
      (∀ h ∈ st.opened, fdBase ≤ h ∧ h < fdBase + (st.counter : Int)) →
      createLoop env fuel i st = (false, st2) →
      st2.sockets = [] ∧
        ∀ h ∈ st2.opened, h ∈ st2.closed ∨ st2.opened.getLast? = some h := by
  intro fuel
  induction fuel with
  | zero =>
    intro i st st2 hfuel
    exact absurd hfuel (Nat.not_lt_zero _)
  | succ fuel ih =>
    intro i st st2 hfuel hop hdrop hbound hrun
    simp only [createLoop] at hrun
    by_cases hi : i < st.sockets.length
    · rw [dif_pos hi] at hrun
      have hmemtab : ∀ h ∈ st.opened, ∃ e ∈ st.sockets, e.socket = h := by
        intro h hh
        rw [hop] at hh
        rcases List.mem_map.mp hh with ⟨e, hte, hse⟩
        exact ⟨e, List.take_subset i _ hte, hse⟩
      rcases hres : env.socketRes st.counter with _ | err
      · -- socket() succeeded: setsockopt / bind / continue
        simp only [hres] at hrun
        set fd := fdBase + (st.counter : Int) with hfd
        by_cases hso : (st.sockets.get ⟨i, hi⟩).local_addr.family =
            AddrFamily.af_inet6 ∧ env.setsockoptOk fd = false
        · rw [if_pos hso] at hrun
          have hst2 : st2 = Sys_CloseAllSockets
              { sockets := st.sockets, counter := st.counter + 1,
                opened := st.opened ++ [fd], closed := st.closed } := by
            have := hrun
            simp only [Prod.mk.injEq] at this
            exact this.2.symm
          subst hst2
          refine ⟨rfl, ?_⟩
          intro h hh
          rcases List.mem_append.mp hh with h1 | h1
          · left
            exact mem_closed_of_mem_sockets _ h (hmemtab h h1) (hbound h h1).1
          · right
            have : h = fd := by simpa using h1
            subst this
            exact List.getLast?_concat _
        · rw [if_neg hso] at hrun
          by_cases hbind : env.bindOk fd = false
          · rw [if_pos hbind] at hrun
            have hst2 : st2 = Sys_CloseAllSockets
                { sockets := st.sockets, counter := st.counter + 1,
                  opened := st.opened ++ [fd], closed := st.closed } := by
              have := hrun
              simp only [Prod.mk.injEq] at this
              exact this.2.symm
            subst hst2
            refine ⟨rfl, ?_⟩
            intro h hh
            rcases List.mem_append.mp hh with h1 | h1
            · left
              exact mem_closed_of_mem_sockets _ h (hmemtab h h1) (hbound h h1).1
            · right
              have : h = fd := by simpa using h1
              subst this
              exact List.getLast?_concat _
          · rw [if_neg hbind] at hrun
            -- continue with the next entry
            refine ih (i + 1)
              { sockets := st.sockets.set i
                  { st.sockets.get ⟨i, hi⟩ with socket := fd },
                counter := st.counter + 1,
                opened := st.opened ++ [fd], closed := st.closed } st2
              ?_ ?_ ?_ ?_ hrun
            · simp only [List.length_set]
              omega
            · simp only [take_succ_set st.sockets i _ hi, List.map_append,
                List.map_cons, List.map_nil]
              rw [hop]
            · intro e he
              simp only [drop_succ_set st.sockets i _ hi] at he
              have h5 : st.sockets.drop (i + 1) = (st.sockets.drop i).drop 1 := by
                rw [List.drop_drop]
              rw [h5] at he
              exact hdrop e (List.drop_subset _ _ he)
            · intro h hh
              rcases List.mem_append.mp hh with h1 | h1
              · have hb := hbound h h1
                constructor
                · exact hb.1
                · have : ((st.counter + 1 : Nat) : Int) = (st.counter : Int) + 1 := by
                    push_cast
                    ring
                  rw [this]
                  omega
              · have : h = fd := by simpa using h1
                subst this
                have : ((st.counter + 1 : Nat) : Int) = (st.counter : Int) + 1 := by
                  push_cast
                  ring
                rw [hfd, this]
                constructor
                · have : (0 : Int) ≤ (st.counter : Int) := Int.ofNat_nonneg _
                  omega
                · omega
      · -- socket() failed
        cases err with
        | afnosupport =>
          simp only [hres] at hrun
          by_cases hopt : (st.sockets.get ⟨i, hi⟩).optional = true
          · rw [if_pos hopt] at hrun
            refine ih i
              { sockets := removeCompacted st.sockets i,
                counter := st.counter + 1,
                opened := st.opened, closed := st.closed } st2 ?_ ?_ ?_ ?_ hrun
            · simp only [removeCompacted_length st.sockets i hi]
              omega
            · simp only [removeCompacted_take st.sockets i hi]
              exact hop
            · intro e he
              exact hdrop e (removeCompacted_drop_mem st.sockets i hi e he)
            · intro h hh
              have hb := hbound h hh
              constructor
              · exact hb.1
              · have : ((st.counter + 1 : Nat) : Int) = (st.counter : Int) + 1 := by
                  push_cast
                  ring
                rw [this]
                omega
          · rw [if_neg hopt] at hrun
            have hst2 : st2 = Sys_CloseAllSockets
                { st with counter := st.counter + 1 } := by
              have := hrun
              simp only [Prod.mk.injEq] at this
              exact this.2.symm
            subst hst2
            refine ⟨rfl, ?_⟩
            intro h hh
            left
            exact mem_closed_of_mem_sockets _ h (hmemtab h hh) (hbound h hh).1
        | other =>
          simp only [hres] at hrun
          have hst2 : st2 = Sys_CloseAllSockets
              { st with counter := st.counter + 1 } := by
            have := hrun
            simp only [Prod.mk.injEq] at this
            exact this.2.symm
          subst hst2
          refine ⟨rfl, ?_⟩
          intro h hh
          left
          exact mem_closed_of_mem_sockets _ h (hmemtab h hh) (hbound h hh).1
    · rw [dif_neg hi] at hrun
      simp only [Prod.mk.injEq] at hrun
      exact absurd hrun.1 (by simp)

/-- C1: evaluation of `Sys_CreateListenSockets` at the failing input.  For
the three-entry optional plan [IPv4 A, IPv6 B, IPv4 C] on a kernel
without IPv6, the claim (and spec) require the bound set [A, C] with 2
entries; because the compaction copies `nb_sockets - sock_ind - 2`
entries instead of `nb_sockets - sock_ind - 1`, the run instead drops C,
retries B, drops it again, and ends successfully with only [A] — 1
entry. -/
theorem C1_compaction_off_by_one :
    (Sys_CreateListenSockets envNoInet6 planThree).1 = true ∧
      (Sys_CreateListenSockets envNoInet6 planThree).2.sockets.map
        (fun e => e.local_addr) = [addrA] ∧
      (Sys_CreateListenSockets envNoInet6 planThree).2.sockets.length ≠ 2 := by
  decide

/-- C2 counterexample: on the two-entry plan where the second bind fails,
the run returns failure and resets the table, and the first descriptor
(3) is closed — but descriptor 4, created for the entry that failed, is
opened and never closed, refuting "every socket opened in that run has
been closed — including the socket created for the entry that failed". -/
theorem C2_counterexample :
    (Sys_CreateListenSockets envBindFailSecond planTwoDeclared).1 = false ∧
      (Sys_CreateListenSockets envBindFailSecond
        planTwoDeclared).2.sockets.length = 0 ∧
      (4 : Int) ∈ (Sys_CreateListenSockets envBindFailSecond
        planTwoDeclared).2.opened ∧
      (4 : Int) ∉ (Sys_CreateListenSockets envBindFailSecond
        planTwoDeclared).2.closed ∧
      (3 : Int) ∈ (Sys_CreateListenSockets envBindFailSecond
        planTwoDeclared).2.closed := by
  decide

/-- C2 (amended): on any non-recoverable failure, `Sys_CreateListenSockets`
returns failure with the recorded socket count reset to 0, and every
descriptor opened in the run has been closed except possibly the most
recently created one — the descriptor belonging to the entry that failed,
which is never stored in the table and is leaked when the failure happens
after its creation (setsockopt or bind failure). -/
theorem C2_rollback_closes_recorded_sockets (env : NetEnv)
    (plan : List ListenSocketT) (st2 : CreateState)
    (hz : ∀ e ∈ plan, e.socket = 0)
    (hrun : Sys_CreateListenSockets env plan = (false, st2)) :
    st2.sockets = [] ∧
      ∀ h ∈ st2.opened, h ∈ st2.closed ∨ st2.opened.getLast? = some h := by
  refine createLoop_failure_rollback env (plan.length + 1) 0
    { sockets := plan, counter := 0, opened := [], closed := [] } st2
    (by show plan.length - 0 < plan.length + 1; omega) rfl ?_ ?_ hrun
  · intro e he
    exact hz e he
  · intro h hh
    cases hh

/-- Witness for C2's amended theorem: the bind-failure run above. -/
theorem C2_rollback_witness :
    (Sys_CreateListenSockets envBindFailSecond planTwoDeclared).2.sockets = [] ∧
      ∀ h ∈ (Sys_CreateListenSockets envBindFailSecond
          planTwoDeclared).2.opened,
        h ∈ (Sys_CreateListenSockets envBindFailSecond
            planTwoDeclared).2.closed ∨
          (Sys_CreateListenSockets envBindFailSecond
            planTwoDeclared).2.opened.getLast? = some h := by
  have h1 : Sys_CreateListenSockets envBindFailSecond planTwoDeclared =
      (false, (Sys_CreateListenSockets envBindFailSecond planTwoDeclared).2) := by
    decide
  exact C2_rollback_closes_recorded_sockets envBindFailSecond planTwoDeclared _
    (by decide) h1

/-- C4 counterexample: with a daemon requested, the pre-privilege phase
(`Sys_UnsecureInit`) leaves the null device unopened (-1) and performs no
open at all, while the later `Sys_SecurityInit` phase begins by opening
it — refuting "opened during the pre-privilege phase … not opened later
than that phase". -/
theorem C4_counterexample :
    (Sys_UnsecureInit stReq).2.1.null_device = -1 ∧
      (Sys_UnsecureInit stReq).2.2 = [] ∧
      (Sys_SecurityInit envSecAllOk stReq).2.2.head? =
        some SecEvent.openNullDev := by
  decide

/-- C4 (amended): when a daemon was requested the null device is opened at
the start of `Sys_SecurityInit` — before the superuser check and any
chroot — failing that phase if it cannot be opened; `Sys_UnsecureInit`
does not open it (on POSIX it does nothing at all). -/
theorem C4_null_device_opened_in_security_init (env : SecEnv) (st : SysState)
    (hreq : st.daemon_state = DaemonState.request) :
    Sys_UnsecureInit st = (true, st, []) ∧
      (Sys_SecurityInit env st).2.2.head? = some SecEvent.openNullDev ∧
      (env.openNullOk = false →
        Sys_SecurityInit env st = (false, st, [SecEvent.openNullDev])) ∧
      (env.openNullOk = true →
        (Sys_SecurityInit env st).2.1.null_device = nullFd) := by
  rcases st with ⟨ds, nd⟩
  rcases env with ⟨o, r, g, c, d, sg, su⟩
  simp only [SysState.mk.injEq] at hreq ⊢
  subst hreq
  cases o <;> cases r <;> cases g <;> cases c <;> cases d <;> cases sg <;>
    cases su <;>
    simp [Sys_UnsecureInit, Sys_SecurityInit, securityPrivilegeDrop, nullFd]

/-- Witness for C4: the amended theorem at the all-succeeding root
environment with a daemon requested. -/
theorem C4_witness :
    Sys_UnsecureInit stReq = (true, stReq, []) ∧
      (Sys_SecurityInit envSecAllOk stReq).2.2.head? =
        some SecEvent.openNullDev := by
  have h := C4_null_device_opened_in_security_init envSecAllOk stReq rfl
  exact ⟨h.1, h.2.1⟩

/-- C5 counterexample: with a non-superuser effective identity but a
daemon requested and `open("/dev/null")` failing, `Sys_SecurityInit`
returns failure — refuting "when the effective identity is not superuser
… the phase succeeds". -/
theorem C5_counterexample :
    envSecNoRootOpenFails.euidIsRoot = false ∧
      (Sys_SecurityInit envSecNoRootOpenFails stReq).1 = false := by
  decide

/-- C5 (amended): when the effective identity is superuser, the account
lookup, chroot, chdir, setgid and setuid steps occur in this strict order
— lookup before any filesystem change, chroot then chdir before any
identity change, group drop strictly before user drop — each individually
fatal with all later steps skipped; when not superuser none of these
steps is attempted and the phase succeeds, provided the null-device
pre-open performed at the start of the same function (when a daemon was
requested) does not fail. -/
theorem C5_privilege_drop_order (env : SecEnv) (st : SysState) :
    (env.euidIsRoot = false →
        (Sys_SecurityInit env st).2.2.filter isIdentityStep = [] ∧
          ((st.daemon_state = DaemonState.request → env.openNullOk = true) →
            (Sys_SecurityInit env st).1 = true))
    ∧ (env.euidIsRoot = true →
        (st.daemon_state = DaemonState.request → env.openNullOk = true) →
        (env.getpwnamOk = false →
            (Sys_SecurityInit env st).1 = false ∧
              (Sys_SecurityInit env st).2.2.filter isIdentityStep =
                [SecEvent.getpwnamCall])
        ∧ (env.getpwnamOk = true → env.chrootOk = false →
            (Sys_SecurityInit env st).1 = false ∧
              (Sys_SecurityInit env st).2.2.filter isIdentityStep =
                [SecEvent.getpwnamCall, SecEvent.chrootCall])
        ∧ (env.getpwnamOk = true → env.chrootOk = true → env.chdirOk = false →
            (Sys_SecurityInit env st).1 = false ∧
              (Sys_SecurityInit env st).2.2.filter isIdentityStep =
                [SecEvent.getpwnamCall, SecEvent.chrootCall,
                 SecEvent.chdirCall])
        ∧ (env.getpwnamOk = true → env.chrootOk = true → env.chdirOk = true →
            env.setgidOk = false →
            (Sys_SecurityInit env st).1 = false ∧
              (Sys_SecurityInit env st).2.2.filter isIdentityStep =
                [SecEvent.getpwnamCall, SecEvent.chrootCall,
                 SecEvent.chdirCall, SecEvent.setgidCall])
        ∧ (env.getpwnamOk = true → env.chrootOk = true → env.chdirOk = true →
            env.setgidOk = true → env.setuidOk = false →
            (Sys_SecurityInit env st).1 = false ∧
              (Sys_SecurityInit env st).2.2.filter isIdentityStep =
                [SecEvent.getpwnamCall, SecEvent.chrootCall,
                 SecEvent.chdirCall, SecEvent.setgidCall,
                 SecEvent.setuidCall])
        ∧ (env.getpwnamOk = true → env.chrootOk = true → env.chdirOk = true →
            env.setgidOk = true → env.setuidOk = true →
            (Sys_SecurityInit env st).1 = true ∧
              (Sys_SecurityInit env st).2.2.filter isIdentityStep =
                [SecEvent.getpwnamCall, SecEvent.chrootCall,
                 SecEvent.chdirCall, SecEvent.setgidCall,
                 SecEvent.setuidCall])) := by
  rcases st with ⟨ds, nd⟩
  rcases env with ⟨o, r, g, c, d, sg, su⟩
  cases ds <;> cases o <;> cases r <;> cases g <;> cases c <;> cases d <;>
    cases sg <;> cases su <;>
    simp [Sys_SecurityInit, securityPrivilegeDrop, isIdentityStep]

/-- Witness for C5: the all-succeeding root run performs exactly the five
steps in order and succeeds. -/
theorem C5_order_witness :
    (Sys_SecurityInit envSecAllOk stReq).1 = true ∧
      (Sys_SecurityInit envSecAllOk stReq).2.2.filter isIdentityStep =
        [SecEvent.getpwnamCall, SecEvent.chrootCall, SecEvent.chdirCall,
         SecEvent.setgidCall, SecEvent.setuidCall] := by
  have h := (C5_privilege_drop_order envSecAllOk stReq).2 rfl (fun _ => rfl)
  exact ⟨(h.2.2.2.2.2 rfl rfl rfl rfl rfl).1, (h.2.2.2.2.2 rfl rfl rfl rfl rfl).2⟩

/-- C6: if a daemon was requested, a failing detachment makes
`Sys_SecureInit` report failure with `daemon_state` reset to
`DAEMON_STATE_NO`, the null device untouched and no stream redirection at
all; a successful detachment redirects descriptors 0, 1 and 2 to the
pre-opened null device, closes that descriptor, and sets `daemon_state`
to `DAEMON_STATE_EFFECTIVE`. -/
theorem C6_daemonize_failure_restores_state (env : DaemonEnv) (st : SysState)
    (hreq : st.daemon_state = DaemonState.request) :
    (env.daemonOk = false →
        Sys_SecureInit env st =
          (false, { daemon_state := DaemonState.no,
                    null_device := st.null_device }, []))
    ∧ (env.daemonOk = true →
        Sys_SecureInit env st =
          (true, { daemon_state := DaemonState.effective, null_device := -1 },
           [IoEvent.dup2 st.null_device 0, IoEvent.dup2 st.null_device 1,
            IoEvent.dup2 st.null_device 2, IoEvent.closeFd st.null_device])) := by
  rcases st with ⟨ds, nd⟩
  rcases env with ⟨d⟩
  simp only [SysState.mk.injEq] at hreq ⊢
  subst hreq
  cases d <;> simp [Sys_SecureInit]

/-- Witness for C6: both branches at concrete states. -/
theorem C6_witness :
    Sys_SecureInit { daemonOk := false } stReq =
        (false, { daemon_state := DaemonState.no, null_device := -1 }, []) ∧
      Sys_SecureInit { daemonOk := true }
          { daemon_state := DaemonState.request, null_device := 3 } =
        (true, { daemon_state := DaemonState.effective, null_device := -1 },
         [IoEvent.dup2 3 0, IoEvent.dup2 3 1, IoEvent.dup2 3 2,
          IoEvent.closeFd 3]) := by
  constructor
  · exact (C6_daemonize_failure_restores_state { daemonOk := false } stReq
      rfl).1 rfl
  · exact (C6_daemonize_failure_restores_state { daemonOk := true }
      { daemon_state := DaemonState.request, null_device := 3 } rfl).2 rfl

/-- C9: `Sys_SockaddrToString` wraps the numeric host in brackets exactly
when the family is IPv6 and always appends a colon and the numeric port;
when the name conversion fails it returns the fixed sentinel string
instead of failing. -/
theorem C9_format_brackets_iff_ipv6 (env : NameEnv) (address : SockaddrT) :
    (∀ h p, env.getnameinfo address = some (h, p) →
        (address.family = AddrFamily.af_inet6 →
          Sys_SockaddrToString env address = "[" ++ h ++ "]" ++ ":" ++ p)
        ∧ (address.family ≠ AddrFamily.af_inet6 →
          Sys_SockaddrToString env address = h ++ ":" ++ p))
    ∧ (env.getnameinfo address = none →
        Sys_SockaddrToString env address = "NON-PRINTABLE ADDRESS") := by
  constructor
  · intro h p hg
    unfold Sys_SockaddrToString
    simp only [hg]
    constructor
    · intro hv6
      rw [if_pos hv6]
    · intro hv6
      rw [if_neg hv6]
  · intro hg
    unfold Sys_SockaddrToString
    simp only [hg]

/-- Witness for C9: the documentation round-trip examples. -/
theorem C9_format_witness :
    Sys_SockaddrToString nameEnvNumeric addrV4Doc = "203.0.113.5:27900" ∧
      Sys_SockaddrToString nameEnvNumeric addrV6Loop = "[::1]:27900" := by
  constructor
  · have h := ((C9_format_brackets_iff_ipv6 nameEnvNumeric addrV4Doc).1
      "203.0.113.5" "27900" rfl).2 (by decide)
    exact h.trans (by decide)
  · have h := ((C9_format_brackets_iff_ipv6 nameEnvNumeric addrV6Loop).1
      "::1" "27900" rfl).1 rfl
    exact h.trans (by decide)

end Ravenmaster
